import Mathlib

/-!
Shallow embedding of the log_cleaner repository's core engines:

* `extract_date` and `clean_logs_before_date` from `src/logcleaner/file_manager.py`
  (timestamp grammars, log truncation, log-file classification), and
* `should_remove_line`, `get_statement_type`, `remove_logging_statements` from
  `src/logcleaner/cleaner.py` (statement matching and file rewriting).

Lines of text are modelled as `List Char`.  Python's `re.search` on the concrete
patterns used by the repository is modelled by a small token matcher
(`searchToks`) for the timestamp grammars, and by bespoke scanning functions for
the statement patterns; in both cases the model implements the leftmost-match
semantics of `re.search`.  Python `datetime.strptime` is modelled per format
descriptor by `parseFmt`, including the validity checks (month/day ranges,
hour/minute/second bounds, at most six fractional digits) that make
`strptime` raise `ValueError`; a raised `ValueError` is modelled as `none`.
-/

/-- A line of text, as a list of characters (Python `str`). -/
abbrev Line := List Char

/-- Python whitespace for `str.strip` and the regex class `\s`
(restricted to the ASCII whitespace that `Char.isWhitespace` covers). -/
def isSpaceChar (c : Char) : Bool := c.isWhitespace

/-- Python word character (regex `\w`, ASCII fragment): letter, digit or underscore. -/
def isWordChar (c : Char) : Bool := c.isAlphanum || c == '_'

/-- Python `str.strip()`: drop leading and trailing whitespace. -/
def pyStrip (l : Line) : Line :=
  ((l.dropWhile isSpaceChar).reverse.dropWhile isSpaceChar).reverse

/-- `not line.strip()` in Python: the line is empty or all whitespace. -/
def isBlank (l : Line) : Bool := (pyStrip l).isEmpty

/-- `line.strip().startswith('#')` in Python. -/
def startsHash (l : Line) : Bool :=
  match pyStrip l with
  | '#' :: _ => true
  | _ => false

/-- Python substring test `needle in hay`. -/
def containsSub (n : Line) : Line → Bool
  | [] => n.isEmpty
  | c :: t => n.isPrefixOf (c :: t) || containsSub n t

/-- Consume a literal string at the head of the input, or fail. -/
def dropStr (s : Line) (l : Line) : Option Line :=
  if s.isPrefixOf l then some (l.drop s.length) else none

/-- Consume one-or-more whitespace characters (regex `\s+`), or fail. -/
def dropWsPlus (l : Line) : Option Line :=
  match l with
  | c :: rest => if isSpaceChar c then some (rest.dropWhile isSpaceChar) else none
  | [] => none

/-- Try a position predicate at every suffix of the line, left to right:
the Boolean `re.search` for a pattern whose per-position matcher is `p`. -/
def searchPos (p : Line → Bool) : Line → Bool
  | [] => p []
  | c :: t => p (c :: t) || searchPos p t

/-! ### Tokens for the timestamp regex patterns of `file_manager.py` -/

/-- One token of a timestamp pattern: the patterns in
`LogFileManager.datetime_patterns` are concatenations of fixed-width digit
runs `\d{n}`, one-or-more digit runs `\d+`, fixed-width letter runs
`[A-Za-z]{n}`, literal characters, and the sign class `[+\-]`. -/
inductive Tok where
  | digits (n : Nat)
  | digitsPlus
  | alphas (n : Nat)
  | ch (c : Char)
  | plusminus
  deriving DecidableEq

/-- Match a token list at the head of the input, returning the matched text
(the content of the pattern's capturing group).  `digitsPlus` uses maximal
munch, which agrees with the greedy regex `\d+` here because in every pattern
of the repository the token after `\d+` is a non-digit literal. -/
def matchToks : List Tok → Line → Option Line
  | [], _ => some []
  | Tok.digits n :: ts, cs =>
    let pre := cs.take n
    if pre.length = n ∧ pre.all Char.isDigit then
      (matchToks ts (cs.drop n)).map (fun m => pre ++ m)
    else none
  | Tok.digitsPlus :: ts, cs =>
    let pre := cs.takeWhile Char.isDigit
    if pre.isEmpty then none
    else (matchToks ts (cs.drop pre.length)).map (fun m => pre ++ m)
  | Tok.alphas n :: ts, cs =>
    let pre := cs.take n
    if pre.length = n ∧ pre.all Char.isAlpha then
      (matchToks ts (cs.drop n)).map (fun m => pre ++ m)
    else none
  | Tok.ch c :: ts, cs =>
    match cs with
    | c' :: rest => if c' = c then (matchToks ts rest).map (fun m => c :: m) else none
    | [] => none
  | Tok.plusminus :: ts, cs =>
    match cs with
    | c' :: rest =>
      if c' = '+' ∨ c' = '-' then (matchToks ts rest).map (fun m => c' :: m) else none
    | [] => none

/-- `re.search` for a token pattern: try each start position left to right and
return the text matched at the first position where the pattern matches
(Python returns `match.group(1)`, the whole pattern being the group). -/
def searchToks (ts : List Tok) : Line → Option Line
  | [] => matchToks ts []
  | c :: rest =>
    match matchToks ts (c :: rest) with
    | some m => some m
    | none => searchToks ts rest

/-! ### `datetime.strptime` for the format descriptors used by the repository -/

/-- A parsed Python `datetime`: `tz = none` models an offset-naive value,
`tz = some k` an offset-aware value with UTC offset `k` minutes. -/
structure PyDateTime where
  year : Nat
  month : Nat
  day : Nat
  hour : Nat
  minute : Nat
  second : Nat
  micro : Nat
  tz : Option Int
  deriving DecidableEq, Repr

/-- The ten `strptime` format descriptors appearing in `datetime_patterns`. -/
inductive Fmt where
  | ymd          -- %Y-%m-%d
  | ymdHMS       -- %Y-%m-%d %H:%M:%S
  | ymdTHMS      -- %Y-%m-%dT%H:%M:%S
  | mdy          -- %m/%d/%Y
  | ymdTHMSz     -- %Y-%m-%dT%H:%M:%S%z
  | bdHMSY       -- %b %d %H:%M:%S %Y
  | epoch        -- %s  (not a Python strptime directive)
  | ymdTHMSfZ    -- %Y-%m-%dT%H:%M:%S.%fZ
  | abdHMSY      -- %a %b %d %H:%M:%S %Y
  | ymd8         -- %Y%m%d
  deriving DecidableEq

/-- Numeric value of two digit characters. -/
def num2 (a b : Char) : Option Nat :=
  if a.isDigit ∧ b.isDigit then some ((a.toNat - 48) * 10 + (b.toNat - 48)) else none

/-- Numeric value of four digit characters. -/
def num4 (a b c d : Char) : Option Nat :=
  if a.isDigit ∧ b.isDigit ∧ c.isDigit ∧ d.isDigit then
    some (((a.toNat - 48) * 10 + (b.toNat - 48)) * 100 + (c.toNat - 48) * 10 + (d.toNat - 48))
  else none

/-- Numeric value of a digit run. -/
def digitsToNat (l : Line) : Nat := l.foldl (fun acc c => acc * 10 + (c.toNat - 48)) 0

/-- Gregorian leap year, as Python's `datetime` uses. -/
def isLeapYear (y : Nat) : Bool := y % 4 = 0 ∧ (y % 100 ≠ 0 ∨ y % 400 = 0)

/-- Days in a month, as Python's `datetime` validates. -/
def daysInMonth (y m : Nat) : Nat :=
  if m = 2 then (if isLeapYear y then 29 else 28)
  else if m = 4 ∨ m = 6 ∨ m = 9 ∨ m = 11 then 30
  else 31

/-- Build a `datetime` value, enforcing the checks under which Python's
`strptime`/`datetime` constructor succeeds: year 1..9999, month 1..12, day in
range for the month, hour at most 23, minute and second at most 59. -/
def mkDateTime (y m d h mi s mic : Nat) (tz : Option Int) : Option PyDateTime :=
  if 1 ≤ y ∧ y ≤ 9999 ∧ 1 ≤ m ∧ m ≤ 12 ∧ 1 ≤ d ∧ d ≤ daysInMonth y m ∧
     h ≤ 23 ∧ mi ≤ 59 ∧ s ≤ 59 then
    some ⟨y, m, d, h, mi, s, mic, tz⟩
  else none

/-- Month number of a `%b` abbreviation, matched case-insensitively. -/
def monthAbbrev (a b c : Char) : Option Nat :=
  let s : Line := [a.toLower, b.toLower, c.toLower]
  if s = "jan".data then some 1 else if s = "feb".data then some 2
  else if s = "mar".data then some 3 else if s = "apr".data then some 4
  else if s = "may".data then some 5 else if s = "jun".data then some 6
  else if s = "jul".data then some 7 else if s = "aug".data then some 8
  else if s = "sep".data then some 9 else if s = "oct".data then some 10
  else if s = "nov".data then some 11 else if s = "dec".data then some 12
  else none

/-- Whether three letters form a `%a` weekday abbreviation (case-insensitive);
`strptime` checks membership but does not reconcile the weekday with the date. -/
def isDowAbbrev (a b c : Char) : Bool :=
  let s : Line := [a.toLower, b.toLower, c.toLower]
  s = "mon".data ∨ s = "tue".data ∨ s = "wed".data ∨ s = "thu".data ∨
  s = "fri".data ∨ s = "sat".data ∨ s = "sun".data

/-- `strptime` with format `%Y-%m-%d` on the matched text. -/
def parseYmd : Line → Option PyDateTime
  | [y1, y2, y3, y4, '-', m1, m2, '-', d1, d2] => do
    let y ← num4 y1 y2 y3 y4
    let m ← num2 m1 m2
    let d ← num2 d1 d2
    mkDateTime y m d 0 0 0 0 none
  | _ => none

/-- `strptime` with format `%Y-%m-%d %H:%M:%S` (space separator). -/
def parseYmdHMS : Line → Option PyDateTime
  | [y1, y2, y3, y4, '-', m1, m2, '-', d1, d2, ' ',
     h1, h2, ':', i1, i2, ':', s1, s2] => do
    let y ← num4 y1 y2 y3 y4
    let m ← num2 m1 m2
    let d ← num2 d1 d2
    let h ← num2 h1 h2
    let mi ← num2 i1 i2
    let s ← num2 s1 s2
    mkDateTime y m d h mi s 0 none
  | _ => none

/-- `strptime` with format `%Y-%m-%dT%H:%M:%S`. -/
def parseYmdTHMS : Line → Option PyDateTime
  | [y1, y2, y3, y4, '-', m1, m2, '-', d1, d2, 'T',
     h1, h2, ':', i1, i2, ':', s1, s2] => do
    let y ← num4 y1 y2 y3 y4
    let m ← num2 m1 m2
    let d ← num2 d1 d2
    let h ← num2 h1 h2
    let mi ← num2 i1 i2
    let s ← num2 s1 s2
    mkDateTime y m d h mi s 0 none
  | _ => none

/-- `strptime` with format `%m/%d/%Y`. -/
def parseMdy : Line → Option PyDateTime
  | [m1, m2, '/', d1, d2, '/', y1, y2, y3, y4] => do
    let y ← num4 y1 y2 y3 y4
    let m ← num2 m1 m2
    let d ← num2 d1 d2
    mkDateTime y m d 0 0 0 0 none
  | _ => none

/-- `strptime` with format `%Y-%m-%dT%H:%M:%S%z` on text of the shape
`YYYY-MM-DDTHH:MM:SS±HH:MM`: yields an offset-aware datetime; Python's
`timezone` accepts only offsets strictly smaller than 24 hours. -/
def parseYmdTHMSz : Line → Option PyDateTime
  | [y1, y2, y3, y4, '-', m1, m2, '-', d1, d2, 'T',
     h1, h2, ':', i1, i2, ':', s1, s2, sg, o1, o2, ':', o3, o4] => do
    let y ← num4 y1 y2 y3 y4
    let m ← num2 m1 m2
    let d ← num2 d1 d2
    let h ← num2 h1 h2
    let mi ← num2 i1 i2
    let s ← num2 s1 s2
    let oh ← num2 o1 o2
    let om ← num2 o3 o4
    if (sg = '+' ∨ sg = '-') ∧ oh * 60 + om < 1440 then
      let off : Int := (if sg = '-' then -1 else 1) * (oh * 60 + om : Nat)
      mkDateTime y m d h mi s 0 (some off)
    else none
  | _ => none

/-- `strptime` with format `%b %d %H:%M:%S %Y`. -/
def parseBdHMSY : Line → Option PyDateTime
  | [b1, b2, b3, ' ', d1, d2, ' ', h1, h2, ':', i1, i2, ':', s1, s2, ' ',
     y1, y2, y3, y4] => do
    let m ← monthAbbrev b1 b2 b3
    let d ← num2 d1 d2
    let h ← num2 h1 h2
    let mi ← num2 i1 i2
    let s ← num2 s1 s2
    let y ← num4 y1 y2 y3 y4
    mkDateTime y m d h mi s 0 none
  | _ => none

/-- `strptime` with format `%s`.  `%s` is not a directive Python's
`_strptime` knows: `datetime.strptime(text, '%s')` raises
`ValueError: 's' is a bad directive` for every input, so this parse
always fails and `extract_date` falls through to the next grammar. -/
def parseEpoch : Line → Option PyDateTime := fun _ => none

/-- `strptime` with format `%Y-%m-%dT%H:%M:%S.%fZ`: `%f` accepts one to six
fractional digits (right-padded to microseconds); on seven or more digits the
literal `Z` of the format can never line up and `strptime` raises. -/
def parseYmdTHMSfZ : Line → Option PyDateTime
  | y1 :: y2 :: y3 :: y4 :: '-' :: m1 :: m2 :: '-' :: d1 :: d2 :: 'T' ::
    h1 :: h2 :: ':' :: i1 :: i2 :: ':' :: s1 :: s2 :: '.' :: rest => do
    let y ← num4 y1 y2 y3 y4
    let m ← num2 m1 m2
    let d ← num2 d1 d2
    let h ← num2 h1 h2
    let mi ← num2 i1 i2
    let s ← num2 s1 s2
    let frac := rest.takeWhile Char.isDigit
    if rest = frac ++ ['Z'] ∧ 1 ≤ frac.length ∧ frac.length ≤ 6 then
      mkDateTime y m d h mi s (digitsToNat frac * 10 ^ (6 - frac.length)) none
    else none
  | _ => none

/-- `strptime` with format `%a %b %d %H:%M:%S %Y`. -/
def parseAbdHMSY : Line → Option PyDateTime
  | [w1, w2, w3, ' ', b1, b2, b3, ' ', d1, d2, ' ',
     h1, h2, ':', i1, i2, ':', s1, s2, ' ', y1, y2, y3, y4] => do
    if isDowAbbrev w1 w2 w3 then
      let m ← monthAbbrev b1 b2 b3
      let d ← num2 d1 d2
      let h ← num2 h1 h2
      let mi ← num2 i1 i2
      let s ← num2 s1 s2
      let y ← num4 y1 y2 y3 y4
      mkDateTime y m d h mi s 0 none
    else none
  | _ => none

/-- `strptime` with format `%Y%m%d` on eight digits. -/
def parseYmd8 : Line → Option PyDateTime
  | [y1, y2, y3, y4, m1, m2, d1, d2] => do
    let y ← num4 y1 y2 y3 y4
    let m ← num2 m1 m2
    let d ← num2 d1 d2
    mkDateTime y m d 0 0 0 0 none
  | _ => none

/-- Dispatch `strptime` on a format descriptor. -/
def parseFmt : Fmt → Line → Option PyDateTime
  | Fmt.ymd => parseYmd
  | Fmt.ymdHMS => parseYmdHMS
  | Fmt.ymdTHMS => parseYmdTHMS
  | Fmt.mdy => parseMdy
  | Fmt.ymdTHMSz => parseYmdTHMSz
  | Fmt.bdHMSY => parseBdHMSY
  | Fmt.epoch => parseEpoch
  | Fmt.ymdTHMSfZ => parseYmdTHMSfZ
  | Fmt.abdHMSY => parseAbdHMSY
  | Fmt.ymd8 => parseYmd8

/-! ### The grammar table of `LogFileManager.__init__` -/

/-- `(\d{4}-\d{2}-\d{2})`. -/
def tokYmd : List Tok :=
  [Tok.digits 4, Tok.ch '-', Tok.digits 2, Tok.ch '-', Tok.digits 2]

/-- `(\d{4}-\d{2}-\d{2} \d{2}:\d{2}:\d{2})`. -/
def tokYmdHMS : List Tok :=
  tokYmd ++ [Tok.ch ' ', Tok.digits 2, Tok.ch ':', Tok.digits 2, Tok.ch ':', Tok.digits 2]

/-- `(\d{4}-\d{2}-\d{2}T\d{2}:\d{2}:\d{2})`. -/
def tokYmdTHMS : List Tok :=
  tokYmd ++ [Tok.ch 'T', Tok.digits 2, Tok.ch ':', Tok.digits 2, Tok.ch ':', Tok.digits 2]

/-- `(\d{2}/\d{2}/\d{4})`. -/
def tokMdy : List Tok :=
  [Tok.digits 2, Tok.ch '/', Tok.digits 2, Tok.ch '/', Tok.digits 4]

/-- `(\d{4}-\d{2}-\d{2}T\d{2}:\d{2}:\d{2}[+\-]\d{2}:\d{2})`. -/
def tokYmdTHMSz : List Tok :=
  tokYmdTHMS ++ [Tok.plusminus, Tok.digits 2, Tok.ch ':', Tok.digits 2]

/-- `([A-Za-z]{3} \d{2} \d{2}:\d{2}:\d{2} \d{4})`. -/
def tokBdHMSY : List Tok :=
  [Tok.alphas 3, Tok.ch ' ', Tok.digits 2, Tok.ch ' ', Tok.digits 2, Tok.ch ':',
   Tok.digits 2, Tok.ch ':', Tok.digits 2, Tok.ch ' ', Tok.digits 4]

/-- `(\d{10})`. -/
def tokEpoch : List Tok := [Tok.digits 10]

/-- `(\d{4}-\d{2}-\d{2}T\d{2}:\d{2}:\d{2}\.\d+Z)`. -/
def tokYmdTHMSfZ : List Tok :=
  tokYmdTHMS ++ [Tok.ch '.', Tok.digitsPlus, Tok.ch 'Z']

/-- `([A-Za-z]{3} [A-Za-z]{3} \d{2} \d{2}:\d{2}:\d{2} \d{4})`. -/
def tokAbdHMSY : List Tok := Tok.alphas 3 :: Tok.ch ' ' :: tokBdHMSY

/-- `(\d{8})`. -/
def tokYmd8 : List Tok := [Tok.digits 8]

/-- `LogFileManager.datetime_patterns`, in the order the constructor lists
them (file_manager.py lines 51-62): the bare date pattern comes first. -/
def datetime_patterns : List (List Tok × Fmt) :=
  [(tokYmd, Fmt.ymd),
   (tokYmdHMS, Fmt.ymdHMS),
   (tokYmdTHMS, Fmt.ymdTHMS),
   (tokMdy, Fmt.mdy),
   (tokYmdTHMSz, Fmt.ymdTHMSz),
   (tokBdHMSY, Fmt.bdHMSY),
   (tokEpoch, Fmt.epoch),
   (tokYmdTHMSfZ, Fmt.ymdTHMSfZ),
   (tokAbdHMSY, Fmt.abdHMSY),
   (tokYmd8, Fmt.ymd8)]

/-- Try one grammar on a line: `re.search` the pattern; on a match, `strptime`
the matched text; a parse failure (`ValueError`) yields `none` so that the
caller falls through to the next grammar. -/
def tryPattern (pf : List Tok × Fmt) (line : Line) : Option PyDateTime :=
  match searchToks pf.1 line with
  | some matched => parseFmt pf.2 matched
  | none => none

/-- Try a list of grammars in order, returning the first successful parse. -/
def tryAll : List (List Tok × Fmt) → Line → Option PyDateTime
  | [], _ => none
  | pf :: rest, line =>
    match tryPattern pf line with
    | some d => some d
    | none => tryAll rest line

/-- `LogFileManager.extract_date`: try `datetime_patterns` in order; the first
grammar whose pattern matches and whose parse succeeds wins; if none does,
return `none`. -/
def extract_date (line : Line) : Option PyDateTime := tryAll datetime_patterns line

/-- The grammar at a given priority index, applied to a line. -/
def tryIdx (ps : List (List Tok × Fmt)) (i : Nat) (line : Line) : Option PyDateTime :=
  match ps.get? i with
  | some pf => tryPattern pf line
  | none => none

/-- Modelled from the spec: the grammar table in the priority order the spec
lists in section 4.3 (`YYYY-MM-DD HH:MM:SS` first, the bare date only sixth),
for comparison with the implementation's `datetime_patterns` order. -/
def specOrderPatterns : List (List Tok × Fmt) :=
  [(tokYmdHMS, Fmt.ymdHMS),
   (tokYmdTHMS, Fmt.ymdTHMS),
   (tokYmdTHMSz, Fmt.ymdTHMSz),
   (tokYmdTHMSfZ, Fmt.ymdTHMSfZ),
   (tokMdy, Fmt.mdy),
   (tokYmd, Fmt.ymd),
   (tokEpoch, Fmt.epoch),
   (tokBdHMSY, Fmt.bdHMSY),
   (tokAbdHMSY, Fmt.abdHMSY),
   (tokYmd8, Fmt.ymd8)]

/-- Date extraction as the spec's listed priority order would have it. -/
def extractDateSpecOrder (line : Line) : Option PyDateTime :=
  tryAll specOrderPatterns line

/-! ### Statement matching (`LogCleaner` of `cleaner.py`) -/

/-- `LogCleaner.console_methods`, in source order. -/
def consoleMethods : List Line :=
  ["log".data, "error".data, "warn".data, "info".data, "debug".data,
   "trace".data, "dir".data, "dirxml".data, "table".data, "count".data,
   "countReset".data, "assert".data, "clear".data, "group".data,
   "groupEnd".data, "groupCollapsed".data, "time".data, "timeEnd".data,
   "timeLog".data, "profile".data, "profileEnd".data]

/-- Matcher, at one position, for the tail of the console pattern
`console\.(<methods>)\s*\(\s*(?:[^;]*?\s*\+?\s*)*[^;]*?\);?`:
after `console.` and a listed method name come optional whitespace, `(`,
then (since the lazy inner groups together generate exactly the
semicolon-free strings) a `;`-free stretch closed by `)`. -/
def consoleCore (s : Line) : Bool :=
  match dropStr ("console.".data) s with
  | none => false
  | some rest =>
    consoleMethods.any (fun m =>
      match dropStr m rest with
      | none => false
      | some r1 =>
        match r1.dropWhile isSpaceChar with
        | '(' :: r3 => (r3.takeWhile (fun c => c ≠ ';')).contains ')'
        | _ => false)

/-- Scan for the console pattern, tracking the previous character for the
word boundary `\b` in front of `console`. -/
def consoleScan : Option Char → Line → Bool
  | _, [] => false
  | prev, c :: t =>
    ((match prev with
      | none => true
      | some p => !isWordChar p) && consoleCore (c :: t)) || consoleScan (some c) t

/-- `self.compiled_console_pattern.search(line)` as a Boolean. -/
def consoleSearch (l : Line) : Bool := consoleScan none l

/-- Position matcher for `import\s+logging\s*(?:as\s+\w+)?\s*`
(everything after `logging` can match the empty string). -/
def pyP1At (s : Line) : Bool :=
  (do
    let r ← dropStr ("import".data) s
    let r ← dropWsPlus r
    let _ ← dropStr ("logging".data) r
    pure ()).isSome

/-- Position matcher for `from\s+logging\s+import\s+.*`. -/
def pyP2At (s : Line) : Bool :=
  (do
    let r ← dropStr ("from".data) s
    let r ← dropWsPlus r
    let r ← dropStr ("logging".data) r
    let r ← dropWsPlus r
    let r ← dropStr ("import".data) r
    let _ ← dropWsPlus r
    pure ()).isSome

/-- Position matcher for `_?logger\s*=\s*logging\.getLogger\([^)]*\)`;
for match existence the optional leading underscore is immaterial, since a
match with `_` present contains a match starting at `logger` itself. -/
def pyP3At (s : Line) : Bool :=
  match (do
    let r ← dropStr ("logger".data) s
    let r := r.dropWhile isSpaceChar
    let r ← dropStr ("=".data) r
    let r := r.dropWhile isSpaceChar
    dropStr ("logging.getLogger(".data) r) with
  | some r => r.contains ')'
  | none => false

/-- Position matcher for `<head>\.[a-zA-Z]+\([^)]*\)` (patterns
`logging\.[a-zA-Z]+\([^)]*\)` and `_?logger\.[a-zA-Z]+\([^)]*\)`): the
method letters run directly into `(`, and `[^)]*\)` holds of the remainder
iff it contains a closing parenthesis at all. -/
def pyCallAt (head : Line) (s : Line) : Bool :=
  match dropStr head s with
  | some r =>
    let run := r.takeWhile Char.isAlpha
    !run.isEmpty &&
      (match r.drop run.length with
       | '(' :: r2 => r2.contains ')'
       | _ => false)
  | none => false

/-- Position matcher for `<head>\.[a-zA-Z]+\s*\(\s*(?:[^()]*?\s*\+?\s*)*[^()]*?\)`
(patterns six and seven): whitespace may separate the method from `(`, and the
lazy inner groups together generate exactly the parenthesis-free strings, so
the argument stretch matches iff the first parenthesis character after `(`
is a `)`. -/
def pyCallWsAt (head : Line) (s : Line) : Bool :=
  match dropStr head s with
  | some r =>
    let run := r.takeWhile Char.isAlpha
    !run.isEmpty &&
      (match (r.drop run.length).dropWhile isSpaceChar with
       | '(' :: r3 =>
         match r3.dropWhile (fun c => c ≠ '(' ∧ c ≠ ')') with
         | ')' :: _ => true
         | _ => false
       | _ => false)
  | none => false

/-- `any(pattern.search(line) for pattern in self.compiled_python_patterns)`:
the seven Python statement patterns of `LogCleaner.__init__`, each searched
at every position. -/
def pythonAny (l : Line) : Bool :=
  searchPos pyP1At l || searchPos pyP2At l ||
  searchPos pyP3At l ||
  searchPos (pyCallAt ("logging.".data)) l ||
  searchPos (pyCallAt ("logger.".data)) l ||
  searchPos (pyCallWsAt ("logging.".data)) l ||
  searchPos (pyCallWsAt ("logger.".data)) l

/-- The C-style extensions `['.js', '.jsx', '.ts', '.tsx']`. -/
def jsExts : List Line := [".js".data, ".jsx".data, ".ts".data, ".tsx".data]

/-- `LogCleaner.should_remove_line`: blank lines and lines whose stripped
content starts with `#` are never removed; C-style files consult the console
pattern, Python files the seven Python patterns, anything else is kept. -/
def should_remove_line (line ft : Line) : Bool :=
  if isBlank line then false
  else if startsHash line then false
  else if jsExts.contains ft then consoleSearch line
  else if ft = ".py".data then pythonAny line
  else false

/-- `re.search(r'<key>(\w+)', line)` where `key` ends in a dot: find the first
position where `key` is followed by a nonempty word-character run and return
that run (the captured method name). -/
def searchCapAfter (key : Line) : Line → Option Line
  | [] => none
  | c :: t =>
    match dropStr key (c :: t) with
    | some rest =>
      let run := rest.takeWhile isWordChar
      if run.isEmpty then searchCapAfter key t else some run
    | none => searchCapAfter key t

/-- `LogCleaner.get_statement_type`: substring-heuristic classification,
independent of the removal patterns. -/
def get_statement_type (line ft : Line) : Line :=
  if jsExts.contains ft then
    match searchCapAfter ("console.".data) line with
    | some m => "console.".data ++ m
    | none => "unknown".data
  else if ft = ".py".data then
    if containsSub ("import logging".data) line then ("logging_import".data)
    else if containsSub ("getLogger".data) line then ("logger_definition".data)
    else if containsSub ("_logger.".data) line || containsSub ("logger.".data) line then
      match searchCapAfter ("logger.".data) line with
      | some m => "logger.".data ++ m
      | none => "logger_statement".data
    else if containsSub ("logging.".data) line then
      match searchCapAfter ("logging.".data) line with
      | some m => "logging.".data ++ m
      | none => "logging_statement".data
    else ("unknown".data)
  else ("unknown".data)

/-! ### The rewrite pass of `LogCleaner.remove_logging_statements` -/

/-- The line-filtering loop of `remove_logging_statements` (cleaner.py lines
778-790), starting at line number `n`: removable lines are recorded as
`(line_number, stripped_text)` and dropped, all other lines kept verbatim;
the modified flag is set iff some line was dropped. -/
def rewriteLoop (ft : Line) : List Line → Nat → List Line × List (Nat × Line) × Bool
  | [], _ => ([], [], false)
  | l :: ls, n =>
    let r := rewriteLoop ft ls (n + 1)
    if should_remove_line l ft then (r.1, (n, pyStrip l) :: r.2.1, true)
    else (l :: r.1, r.2.1, r.2.2)

/-- One rewrite pass over a file's lines (line numbers starting at 1, as
`enumerate(lines, 1)` does): returns `(cleaned_lines, removed_lines,
file_modified)`. -/
def rewrite (lines : List Line) (ft : Line) : List Line × List (Nat × Line) × Bool :=
  rewriteLoop ft lines 1

/-- The aggregate session statistics `LogCleaner.stats`, with the two
per-statement-type and per-extension counters as insertion-ordered
association lists (Python dicts). -/
structure CleanStats where
  files_processed : Nat
  lines_removed : Nat
  removed_statements : List (Line × Nat)
  file_types_processed : List (Line × Nat)
  deriving DecidableEq, Repr

/-- `d[k] = d.get(k, 0) + 1` on an insertion-ordered association list. -/
def bumpCount : List (Line × Nat) → Line → List (Line × Nat)
  | [], k => [(k, 1)]
  | (k', n) :: rest, k =>
    if k' = k then (k', n + 1) :: rest else (k', n) :: bumpCount rest k

/-- A source file as `remove_logging_statements` sees it: whether reading it
raises, whether writing the cleaned content back raises, its lines, and its
extension (`os.path.splitext(file_path)[1]`). -/
structure CodeFileModel where
  readFails : Bool
  writeFails : Bool
  lines : List Line
  fileType : Line
  deriving DecidableEq, Repr

/-- `LogCleaner.remove_logging_statements` for one file, tracking only its
effect on `self.stats`.  Reading happens first: if it raises, the exception
is caught and nothing is counted.  Then the filtering loop mutates
`lines_removed` and `removed_statements` in place.  Only if the file was
modified is it written back; if the write raises, the exception is caught
but the loop's in-place increments remain, and only `files_processed` and
`file_types_processed` (incremented after the write) stay untouched. -/
def processFile (stats : CleanStats) (f : CodeFileModel) : CleanStats :=
  if f.readFails then stats
  else
    let r := rewrite f.lines f.fileType
    let stats' : CleanStats :=
      { stats with
        lines_removed := stats.lines_removed + r.2.1.length,
        removed_statements :=
          f.lines.foldl
            (fun acc l =>
              if should_remove_line l f.fileType then
                bumpCount acc (get_statement_type l f.fileType)
              else acc)
            stats.removed_statements }
    if r.2.2 then
      if f.writeFails then stats'
      else
        { stats' with
          files_processed := stats'.files_processed + 1,
          file_types_processed := bumpCount stats'.file_types_processed f.fileType }
    else stats'

/-- Processing a list of files in order: each file's `try/except` catches its
own errors, so the fold is total and later files are always processed. -/
def processFiles (stats : CleanStats) (fs : List CodeFileModel) : CleanStats :=
  fs.foldl processFile stats

/-! ### Log truncation (`LogFileManager.clean_logs_before_date`) -/

/-- Rata-die style day count for a valid Gregorian date with `1 ≤ y`
(days-from-civil algorithm, up to a constant offset, which cancels in all
comparisons). -/
def civilDays (y m d : Nat) : Nat :=
  let y' := if m ≤ 2 then y - 1 else y
  let era := y' / 400
  let yoe := y' % 400
  let mp := (m + 9) % 12
  let doy := (153 * mp + 2) / 5 + (d - 1)
  let doe := yoe * 365 + yoe / 4 - yoe / 100 + doy
  era * 146097 + doe

/-- Microseconds on the timeline ignoring the offset (naive reading). -/
def naiveMicros (dt : PyDateTime) : Int :=
  ((civilDays dt.year dt.month dt.day : Int) * 86400 +
   (dt.hour : Int) * 3600 + (dt.minute : Int) * 60 + (dt.second : Int)) * 1000000 +
  (dt.micro : Int)

/-- Microseconds on the timeline, shifting offset-aware values to UTC. -/
def absMicros (dt : PyDateTime) : Int :=
  naiveMicros dt - (dt.tz.getD 0) * 60000000

/-- Python's `a >= b` on `datetime` values: defined between two naive or two
aware values; comparing a naive value with an aware one raises `TypeError`,
modelled as `none`. -/
def pyGe (a b : PyDateTime) : Option Bool :=
  match a.tz, b.tz with
  | none, none => some (decide (absMicros b ≤ absMicros a))
  | some _, some _ => some (decide (absMicros b ≤ absMicros a))
  | _, _ => none

/-- The per-line loop of `clean_logs_before_date` (file_manager.py lines
209-222): blank lines are kept, lines with no extracted date are kept, lines
with date at or after the cutoff are kept, the rest are dropped and counted
and set the modified flag.  A `TypeError` from comparing an offset-aware
extracted date with the naive cutoff propagates out of the loop, modelled as
`none` for the whole file. -/
def cleanLoop : List Line → PyDateTime → Option (List Line × Nat × Bool)
  | [], _ => some ([], 0, false)
  | l :: ls, cutoff =>
    if isBlank l then
      (cleanLoop ls cutoff).map (fun r => (l :: r.1, r.2.1, r.2.2))
    else
      match extract_date l with
      | none => (cleanLoop ls cutoff).map (fun r => (l :: r.1, r.2.1, r.2.2))
      | some d =>
        match pyGe d cutoff with
        | none => none
        | some true => (cleanLoop ls cutoff).map (fun r => (l :: r.1, r.2.1, r.2.2))
        | some false => (cleanLoop ls cutoff).map (fun r => (r.1, r.2.1 + 1, true))

/-- The per-line keep decision implied by a successful pass of `cleanLoop`:
keep iff blank, or no date extracted, or the extracted date compares
(successfully) at-or-after the cutoff. -/
def keepB (cutoff : PyDateTime) (l : Line) : Bool :=
  isBlank l ||
    (match extract_date l with
     | none => true
     | some d => decide (pyGe d cutoff = some true))

/-- A log file as `clean_logs_before_date` sees it: whether reading raises,
whether writing back raises, and its lines. -/
structure LogFileModel where
  readFails : Bool
  writeFails : Bool
  lines : List Line
  deriving DecidableEq, Repr

/-- `clean_logs_before_date` on one file: returns the lines on disk
afterwards, the lines-removed count added to the totals, and whether the file
counted as cleaned.  Any exception (read error, `TypeError` in the loop,
write error) is caught per file, leaves the file unchanged, and contributes
nothing; the counters are only bumped after a successful write. -/
def cleanLogFile (f : LogFileModel) (cutoff : PyDateTime) : List Line × Nat × Bool :=
  if f.readFails then (f.lines, 0, false)
  else
    match cleanLoop f.lines cutoff with
    | none => (f.lines, 0, false)
    | some r =>
      if r.2.2 then
        if f.writeFails then (f.lines, 0, false) else (r.1, r.2.1, true)
      else (f.lines, 0, false)

/-- `clean_logs_before_date` over a list of files: returns
`(files_cleaned, total_lines_removed)`. -/
def clean_logs_before_date (fs : List LogFileModel) (cutoff : PyDateTime) : Nat × Nat :=
  fs.foldl
    (fun acc f =>
      let r := cleanLogFile f cutoff
      (acc.1 + (if r.2.2 then 1 else 0), acc.2 + r.2.1))
    (0, 0)

/-! ### Log file classification (`LogFileManager.is_log_file`) -/

/-- `LogFileManager.log_extensions`. -/
def logExtensions : List Line :=
  [".log".data, ".logs".data, ".error".data, ".debug".data, ".info".data]

/-- `\.log(\.\d+)?$` on the lowercased file name: ends in `.log`, or in
`.log.` followed by a nonempty digit run. -/
def nameLogOptNum (name : Line) : Bool :=
  ".log".data.isSuffixOf name ||
    (let r := name.reverse
     let ds := r.takeWhile Char.isDigit
     !ds.isEmpty && ".log.".data.reverse.isPrefixOf (r.drop ds.length))

/-- `\.log\.[0-9A-Za-z-]+$` on the lowercased file name: ends in `.log.`
followed by a nonempty run of digits, letters and hyphens. -/
def nameLogDotAlnum (name : Line) : Bool :=
  let r := name.reverse
  let run := r.takeWhile (fun c => c.isAlphanum || c == '-')
  !run.isEmpty && ".log.".data.reverse.isPrefixOf (r.drop run.length)

/-- `LogFileManager.log_patterns`, searched on the lowercased file name:
`\.log(\.\d+)?$`, `\.logs$`, `\.(error|debug|info)$`, `\.log\.[0-9A-Za-z-]+$`. -/
def matchesLogNamePattern (name : Line) : Bool :=
  nameLogOptNum name || ".logs".data.isSuffixOf name ||
  ".error".data.isSuffixOf name || ".debug".data.isSuffixOf name ||
  ".info".data.isSuffixOf name || nameLogDotAlnum name

/-- A candidate file as `is_log_file` sees it: whether the path is a regular
file, its suffix (`path.suffix`) and name (`path.name`), whether opening and
reading it succeeds, and its lines. -/
structure FileModel where
  isFile : Bool
  suffix : Line
  name : Line
  readable : Bool
  lines : List Line

/-- The content sniff of `is_log_file`: strip each of the first five lines
and search it with every timestamp grammar pattern; any match classifies the
file as a log file, with no attempt to parse the matched text as a date. -/
def contentSniff (lines : List Line) : Bool :=
  (lines.take 5).any (fun l =>
    datetime_patterns.any (fun pf => (searchToks pf.1 (pyStrip l)).isSome))

/-- `LogFileManager.is_log_file`: extension check, then filename-pattern
check (both on lowercased text), then the content sniff on the first five
lines; an unreadable file is conservatively not a log file. -/
def is_log_file (f : FileModel) : Bool :=
  if !f.isFile then false
  else if logExtensions.contains (f.suffix.map Char.toLower) then true
  else if matchesLogNamePattern (f.name.map Char.toLower) then true
  else if !f.readable then false
  else contentSniff f.lines

/-! ### Theorems -/

theorem tryAll_of_first (ps : List (List Tok × Fmt)) (l : Line) :
    ∀ (i : Nat) (pf : List Tok × Fmt) (d : PyDateTime),
      ps.get? i = some pf →
      (∀ j, j < i → tryIdx ps j l = none) →
      tryPattern pf l = some d →
      tryAll ps l = some d := by
  induction ps with
  | nil => intro i pf d h _ _; simp at h
  | cons p rest ih =>
    intro i pf d hget hbefore hsucc
    cases i with
    | zero =>
      simp at hget
      subst hget
      simp [tryAll, hsucc]
    | succ n =>
      have h0 : tryIdx (p :: rest) 0 l = none := hbefore 0 (Nat.succ_pos n)
      simp [tryIdx] at h0
      have hrest : tryAll rest l = some d := by
        refine ih n pf d (by simpa using hget) (fun j hj => ?_) hsucc
        have := hbefore (j + 1) (Nat.succ_lt_succ hj)
        simpa [tryIdx] using this
      simp [tryAll, h0, hrest]

/-- The counterexample line for the grammar priority order: a line carrying a
full `YYYY-MM-DD HH:MM:SS` timestamp. -/
def c1Line : Line := ("2024-02-15 10:30:45 INFO Test".data)

/-- C1: the implementation does not try the grammars in the spec's listed
order.  On a plain `YYYY-MM-DD HH:MM:SS` log line the code returns midnight
of the date (its first grammar is the bare `YYYY-MM-DD` pattern), while the
spec's listed order would return the full timestamp: the two orders are
observably different. -/
theorem c1_grammar_order_counterexample :
    extract_date c1Line = some ⟨2024, 2, 15, 0, 0, 0, 0, none⟩ ∧
    extractDateSpecOrder c1Line = some ⟨2024, 2, 15, 10, 30, 45, 0, none⟩ ∧
    extract_date c1Line ≠ extractDateSpecOrder c1Line := by
  refine ⟨by decide, by decide, by decide⟩

/-- C1 (amended): `extract_date` tries its ten grammars in the order of
`datetime_patterns` — bare `YYYY-MM-DD` first, then `YYYY-MM-DD HH:MM:SS`,
`YYYY-MM-DDTHH:MM:SS`, `MM/DD/YYYY`, the `±HH:MM`-offset form,
`Mon DD HH:MM:SS YYYY`, 10-digit Unix epoch, `YYYY-MM-DDTHH:MM:SS.ffffffZ`,
`Dow Mon DD HH:MM:SS YYYY`, and `YYYYMMDD` last — and for every input line
the first grammar in this order whose pattern matches a substring of the
line and whose parse succeeds determines the returned instant. -/
theorem c1_grammar_order_amended (l : Line) (i : Nat) (pf : List Tok × Fmt)
    (d : PyDateTime)
    (hget : datetime_patterns.get? i = some pf)
    (hbefore : ∀ j, j < i → tryIdx datetime_patterns j l = none)
    (hsucc : tryPattern pf l = some d) :
    extract_date l = some d :=
  tryAll_of_first datetime_patterns l i pf d hget hbefore hsucc

/-- Witness for the amended C1 at the repository's own test fixture line
`[Feb 15 10:30:45 2024] Server started`: grammar index 5
(`Mon DD HH:MM:SS YYYY`) is the first to match-and-parse, and
`extract_date` returns its instant. -/
theorem c1_grammar_order_witness :
    datetime_patterns.get? 5 = some (tokBdHMSY, Fmt.bdHMSY) ∧
    (∀ j, j < 5 →
      tryIdx datetime_patterns j ("[Feb 15 10:30:45 2024] Server started".data) = none) ∧
    tryPattern (tokBdHMSY, Fmt.bdHMSY) ("[Feb 15 10:30:45 2024] Server started".data) =
      some ⟨2024, 2, 15, 10, 30, 45, 0, none⟩ ∧
    extract_date ("[Feb 15 10:30:45 2024] Server started".data) =
      some ⟨2024, 2, 15, 10, 30, 45, 0, none⟩ := by
  have h1 : datetime_patterns.get? 5 = some (tokBdHMSY, Fmt.bdHMSY) := by decide
  have h2 : ∀ j, j < 5 →
      tryIdx datetime_patterns j ("[Feb 15 10:30:45 2024] Server started".data) = none := by
    decide
  have h3 : tryPattern (tokBdHMSY, Fmt.bdHMSY) ("[Feb 15 10:30:45 2024] Server started".data) =
      some ⟨2024, 2, 15, 10, 30, 45, 0, none⟩ := by decide
  exact ⟨h1, h2, h3,
    c1_grammar_order_amended ("[Feb 15 10:30:45 2024] Server started".data) 5
      (tokBdHMSY, Fmt.bdHMSY) ⟨2024, 2, 15, 10, 30, 45, 0, none⟩ h1 h2 h3⟩

/-- C2: on the repository's own Unix-timestamp fixture line the epoch
grammar's pattern matches `1644915045`, but `strptime` with `%s` always
raises (no such directive in Python), and the trailing `\d{8}` fallback
parses `16449150` as month 91 and also fails, so `extract_date` finds
nothing at all: the 10-digit-epoch grammar can never yield a timestamp. -/
theorem c2_epoch_never_parses :
    searchToks tokEpoch ("1644915045 Started backup process".data) =
      some ("1644915045".data) ∧
    parseFmt Fmt.epoch ("1644915045".data) = none ∧
    extract_date ("1644915045 Started backup process".data) = none := by
  refine ⟨by decide, rfl, by decide⟩

/-- C3: the claim fails on classification.  A plain `from logging import ...`
line is removable, but `get_statement_type` classifies it as `unknown` — not
as a `logging.`-prefixed tag and not as `logging_statement` — because the
line contains none of the substrings the classifier tests
(`import logging`, `getLogger`, `logger.`, `logging.`). -/
theorem c3_from_import_counterexample :
    should_remove_line ("from logging import INFO".data) (".py".data) = true ∧
    get_statement_type ("from logging import INFO".data) (".py".data) = ("unknown".data) ∧
    get_statement_type ("from logging import INFO".data) (".py".data) ≠
      ("logging_statement".data) := by
  refine ⟨by decide, by decide, by decide⟩

/-- C3 (amended): for the PythonScript category, every non-blank,
non-`#`-comment line matching `from\s+logging\s+import\s+...` is removable;
its classification is re-derived by independent substring tests, and for a
line containing none of `import logging`, `getLogger`, `_logger.`, `logger.`
or `logging.` — the typical `from logging import NAME` form — the tag is
`unknown`, not a `logging.`-prefixed tag or `logging_statement`. -/
theorem c3_from_import_amended (line : Line)
    (hb : isBlank line = false) (hh : startsHash line = false)
    (hm : searchPos pyP2At line = true) :
    should_remove_line line (".py".data) = true ∧
    (containsSub ("import logging".data) line = false →
     containsSub ("getLogger".data) line = false →
     containsSub ("_logger.".data) line = false →
     containsSub ("logger.".data) line = false →
     containsSub ("logging.".data) line = false →
     get_statement_type line (".py".data) = ("unknown".data)) := by
  constructor
  · simp [should_remove_line, hb, hh, pythonAny, hm]
    exact Or.inl (by decide)
  · intro h1 h2 h3 h4 h5
    simp [get_statement_type, h1, h2, h3, h4, h5]
    intro hmem
    exact absurd hmem (by decide)

/-- Witness for the amended C3 at the line `from logging import INFO`. -/
theorem c3_from_import_witness :
    should_remove_line ("from logging import INFO".data) (".py".data) = true ∧
    get_statement_type ("from logging import INFO".data) (".py".data) = ("unknown".data) := by
  have h := c3_from_import_amended ("from logging import INFO".data)
    (by decide) (by decide) (by decide)
  exact ⟨h.1, h.2 (by decide) (by decide) (by decide) (by decide) (by decide)⟩

/-- C7: for every category, a line whose stripped content is empty or starts
with `#` is never removable (the check precedes every pattern test); in
particular a `#`-commented Python logging call is kept, while a
`//`-commented C-style `console.log` line is still removable (no `//`
exemption exists). -/
theorem c7_comment_exemption :
    (∀ line ft : Line, (isBlank line || startsHash line) = true →
      should_remove_line line ft = false) ∧
    should_remove_line ("# logging.info('test')".data) (".py".data) = false ∧
    should_remove_line ("// console.log('test');".data) (".js".data) = true := by
  refine ⟨?_, by decide, by decide⟩
  intro line ft h
  rcases Bool.or_eq_true_iff.mp h with h1 | h1
  · simp [should_remove_line, h1]
  · cases h2 : isBlank line
    · simp [should_remove_line, h1, h2]
    · simp [should_remove_line, h2]

/-- Witness for C7 at a whitespace-only line. -/
theorem c7_comment_exemption_witness :
    should_remove_line ("   ".data) (".ts".data) = false :=
  c7_comment_exemption.1 ("   ".data) (".ts".data) (by decide)

theorem rewriteLoop_cleaned (ft : Line) :
    ∀ (ls : List Line) (n : Nat),
      (rewriteLoop ft ls n).1 = ls.filter (fun l => !should_remove_line l ft) := by
  intro ls
  induction ls with
  | nil => intro n; simp [rewriteLoop]
  | cons l t ih =>
    intro n
    cases h : should_remove_line l ft <;>
      simp [rewriteLoop, List.filter_cons, h, ih (n + 1)]

theorem rewriteLoop_removed (ft : Line) :
    ∀ (ls : List Line) (n : Nat),
      (rewriteLoop ft ls n).2.1 =
        (List.enumFrom n ls).filterMap
          (fun p => if should_remove_line p.2 ft then some (p.1, pyStrip p.2) else none) := by
  intro ls
  induction ls with
  | nil => intro n; simp [rewriteLoop, List.enumFrom]
  | cons l t ih =>
    intro n
    cases h : should_remove_line l ft <;>
      simp [rewriteLoop, List.enumFrom, List.filterMap_cons, h, ih (n + 1)]

theorem rewriteLoop_modified (ft : Line) :
    ∀ (ls : List Line) (n : Nat),
      (rewriteLoop ft ls n).2.2 = !(rewriteLoop ft ls n).2.1.isEmpty := by
  intro ls
  induction ls with
  | nil => intro n; simp [rewriteLoop]
  | cons l t ih =>
    intro n
    cases h : should_remove_line l ft <;>
      simp [rewriteLoop, h, ih (n + 1)]

theorem rewriteLoop_length (ft : Line) :
    ∀ (ls : List Line) (n : Nat),
      (rewriteLoop ft ls n).1.length + (rewriteLoop ft ls n).2.1.length = ls.length := by
  intro ls
  induction ls with
  | nil => intro n; simp [rewriteLoop]
  | cons l t ih =>
    intro n
    cases h : should_remove_line l ft <;>
      [skip; skip] <;>
      · have := ih (n + 1)
        simp [rewriteLoop, h]
        omega

/-- C5: for every input line sequence and category, the rewrite pass keeps
verbatim exactly the lines `should_remove_line` rejects, records exactly the
removable lines (with their 1-based line numbers and stripped text) in the
removals list, and the count identity
`len(input) - len(cleaned_lines) = len(removals)` holds. -/
theorem c5_rewrite_records (lines : List Line) (ft : Line) :
    (rewrite lines ft).1 = lines.filter (fun l => !should_remove_line l ft) ∧
    (rewrite lines ft).2.1 =
      (List.enumFrom 1 lines).filterMap
        (fun p => if should_remove_line p.2 ft then some (p.1, pyStrip p.2) else none) ∧
    (rewrite lines ft).1.length + (rewrite lines ft).2.1.length = lines.length ∧
    lines.length - (rewrite lines ft).1.length = (rewrite lines ft).2.1.length := by
  refine ⟨rewriteLoop_cleaned ft lines 1, rewriteLoop_removed ft lines 1, ?_, ?_⟩
  · exact rewriteLoop_length ft lines 1
  · have h := rewriteLoop_length ft lines 1
    simp only [rewrite] at h ⊢
    omega

theorem rewriteLoop_of_none_removable (ft : Line) :
    ∀ (ls : List Line) (n : Nat),
      (∀ l ∈ ls, should_remove_line l ft = false) →
      rewriteLoop ft ls n = (ls, [], false) := by
  intro ls
  induction ls with
  | nil => intro n _; simp [rewriteLoop]
  | cons l t ih =>
    intro n h
    have hl : should_remove_line l ft = false := h l (List.mem_cons_self l t)
    have ht := ih (n + 1) (fun x hx => h x (List.mem_cons_of_mem l hx))
    simp [rewriteLoop, hl, ht]

/-- C8: the rewrite pass is idempotent — applying it a second time to the
cleaned lines of the first application finds no removable line, so the
second result's modified flag is false. -/
theorem c8_rewrite_idempotent (lines : List Line) (ft : Line) :
    (rewrite (rewrite lines ft).1 ft).2.2 = false := by
  have hclean : (rewrite lines ft).1 = lines.filter (fun l => !should_remove_line l ft) :=
    rewriteLoop_cleaned ft lines 1
  have hall : ∀ l ∈ (rewrite lines ft).1, should_remove_line l ft = false := by
    rw [hclean]
    intro l hl
    have := List.of_mem_filter hl
    simpa using this
  have h := rewriteLoop_of_none_removable ft (rewrite lines ft).1 1 hall
  simp only [rewrite] at h ⊢
  rw [h]

theorem cleanLoop_spec (cutoff : PyDateTime) :
    ∀ (ls kept : List Line) (n : Nat) (mo : Bool),
      cleanLoop ls cutoff = some (kept, n, mo) →
      kept = ls.filter (keepB cutoff) ∧
      n = (ls.filter (fun l => !keepB cutoff l)).length ∧
      mo = !(ls.filter (fun l => !keepB cutoff l)).isEmpty := by
  intro ls
  induction ls with
  | nil =>
    intro kept n mo h
    simp [cleanLoop] at h
    obtain ⟨h1, h2, h3⟩ := h
    subst h1; subst h2; subst h3
    simp
  | cons l t ih =>
    intro kept n mo h
    cases hb : isBlank l with
    | true =>
      have hk : keepB cutoff l = true := by simp [keepB, hb]
      simp only [cleanLoop, hb, if_true] at h
      rcases Option.map_eq_some'.mp h with ⟨r, hr, heq⟩
      obtain ⟨e1, e2, e3⟩ := ih r.1 r.2.1 r.2.2 (by simpa using hr)
      cases heq
      simp [List.filter_cons, hk, e1, e2, e3]
    | false =>
      cases he : extract_date l with
      | none =>
        have hk : keepB cutoff l = true := by simp [keepB, hb, he]
        simp only [cleanLoop, hb, if_false, he, Bool.false_eq_true] at h
        rcases Option.map_eq_some'.mp h with ⟨r, hr, heq⟩
        obtain ⟨e1, e2, e3⟩ := ih r.1 r.2.1 r.2.2 (by simpa using hr)
        cases heq
        simp [List.filter_cons, hk, e1, e2, e3]
      | some d =>
        cases hg : pyGe d cutoff with
        | none =>
          simp only [cleanLoop, hb, if_false, he, hg, Bool.false_eq_true] at h
          exact Option.noConfusion h
        | some b =>
          cases b with
          | true =>
            have hk : keepB cutoff l = true := by simp [keepB, hb, he, hg]
            simp only [cleanLoop, hb, if_false, he, hg, Bool.false_eq_true] at h
            rcases Option.map_eq_some'.mp h with ⟨r, hr, heq⟩
            obtain ⟨e1, e2, e3⟩ := ih r.1 r.2.1 r.2.2 (by simpa using hr)
            cases heq
            simp [List.filter_cons, hk, e1, e2, e3]
          | false =>
            have hk : keepB cutoff l = false := by simp [keepB, hb, he, hg]
            simp only [cleanLoop, hb, if_false, he, hg, Bool.false_eq_true] at h
            rcases Option.map_eq_some'.mp h with ⟨r, hr, heq⟩
            obtain ⟨e1, e2, e3⟩ := ih r.1 r.2.1 r.2.2 (by simpa using hr)
            cases heq
            simp [List.filter_cons, hk, e1, e2, e3]

/-- C4: the per-line contract fails as a universal statement.  A line whose
first bare-date match is invalid but which carries a parseable
`±HH:MM`-offset timestamp makes `extract_date` return an offset-aware
instant; comparing it with the (naive) cutoff raises `TypeError`, the
per-file handler catches it, and the whole file — including a non-blank
line whose extracted instant is strictly before the cutoff — is left
unchanged: that stale line is neither dropped nor counted. -/
theorem c4_truncation_counterexample :
    extract_date ("1999-01-01 old entry".data) = some ⟨1999, 1, 1, 0, 0, 0, 0, none⟩ ∧
    pyGe ⟨1999, 1, 1, 0, 0, 0, 0, none⟩ ⟨2000, 1, 1, 0, 0, 0, 0, none⟩ = some false ∧
    extract_date ("2024-13-01T00:00:00 2024-02-15T10:30:45+05:00".data) =
      some ⟨2024, 2, 15, 10, 30, 45, 0, some 300⟩ ∧
    cleanLoop [("1999-01-01 old entry".data),
               ("2024-13-01T00:00:00 2024-02-15T10:30:45+05:00".data)]
        ⟨2000, 1, 1, 0, 0, 0, 0, none⟩ = none ∧
    cleanLogFile
        ⟨false, false,
         [("1999-01-01 old entry".data),
          ("2024-13-01T00:00:00 2024-02-15T10:30:45+05:00".data)]⟩
        ⟨2000, 1, 1, 0, 0, 0, 0, none⟩ =
      ([("1999-01-01 old entry".data),
        ("2024-13-01T00:00:00 2024-02-15T10:30:45+05:00".data)], 0, false) := by
  refine ⟨by decide, by decide, by decide, by decide, by decide⟩

/-- C4 (amended): whenever the truncation loop completes without raising —
in particular whenever no line yields an offset-aware instant — the result
keeps exactly the lines that are blank, or have no extractable instant, or
whose instant compares at-or-after the cutoff; every other line is dropped
and counted in the removed-lines counter; and the modified flag is true iff
at least one line was dropped. -/
theorem c4_truncation_amended (lines : List Line) (cutoff : PyDateTime)
    (kept : List Line) (n : Nat) (mo : Bool)
    (h : cleanLoop lines cutoff = some (kept, n, mo)) :
    kept = lines.filter (keepB cutoff) ∧
    n = (lines.filter (fun l => !keepB cutoff l)).length ∧
    (mo = true ↔ 0 < n) := by
  obtain ⟨e1, e2, e3⟩ := cleanLoop_spec cutoff lines kept n mo h
  refine ⟨e1, e2, ?_⟩
  rw [e3, e2]
  simp [List.isEmpty_iff, List.length_pos]

/-- Witness for the amended C4: the spec's own example — a
`2024-02-15 10:30:45` line against cutoff 2024-02-16 is dropped, a blank
line and an undatable line are kept, and the modified flag is set. -/
theorem c4_truncation_witness :
    cleanLoop [("2024-02-15 10:30:45 INFO Test".data), ("".data), ("no date here".data)]
        ⟨2024, 2, 16, 0, 0, 0, 0, none⟩ =
      some ([("".data), ("no date here".data)], 1, true) ∧
    ([("".data), ("no date here".data)] : List Line) =
      ([("2024-02-15 10:30:45 INFO Test".data), ("".data), ("no date here".data)] : List Line).filter
        (keepB ⟨2024, 2, 16, 0, 0, 0, 0, none⟩) ∧
    (true = true ↔ 0 < 1) := by
  have h : cleanLoop [("2024-02-15 10:30:45 INFO Test".data), ("".data), ("no date here".data)]
      ⟨2024, 2, 16, 0, 0, 0, 0, none⟩ =
      some ([("".data), ("no date here".data)], 1, true) := by decide
  have h2 := c4_truncation_amended _ _ _ _ _ h
  exact ⟨h, h2.1, h2.2.2⟩

/-- The all-zero starting statistics of `LogCleaner.__init__`. -/
def statsZero : CleanStats := ⟨0, 0, [], []⟩

/-- C6: the claim fails for write errors.  For a Python file whose only line
is `import logging` and whose write-back raises, the caught exception leaves
the per-line increments in place: the failing file has already contributed
one removed line and one `logging_import` statement to the aggregate
statistics (only `files_processed` and `file_types_processed` stay clean). -/
theorem c6_error_isolation_counterexample :
    (processFile statsZero
        ⟨false, true, [("import logging\n".data)], (".py".data)⟩).lines_removed = 1 ∧
    (processFile statsZero
        ⟨false, true, [("import logging\n".data)], (".py".data)⟩).removed_statements =
      [(("logging_import".data), 1)] ∧
    (processFile statsZero
        ⟨false, true, [("import logging\n".data)], (".py".data)⟩).files_processed = 0 := by
  refine ⟨by decide, by decide, by decide⟩

/-- C6 (amended): errors on a single file are caught and processing always
continues with the remaining files; a file whose read fails contributes
nothing to any statistic; a file whose write fails contributes nothing to
`files_processed` and `file_types_processed`, but its per-line increments to
`lines_removed` and `removed_statements`, made before the write was
attempted, are not rolled back. -/
theorem c6_error_isolation_amended (stats : CleanStats) (f : CodeFileModel)
    (rest : List CodeFileModel) :
    processFiles stats (f :: rest) = processFiles (processFile stats f) rest ∧
    (f.readFails = true → processFile stats f = stats) ∧
    (f.writeFails = true →
      (processFile stats f).files_processed = stats.files_processed ∧
      (processFile stats f).file_types_processed = stats.file_types_processed) := by
  refine ⟨rfl, ?_, ?_⟩
  · intro h
    simp [processFile, h]
  · intro hw
    cases hr : f.readFails with
    | true => simp [processFile, hr]
    | false =>
      simp only [processFile, hr, Bool.false_eq_true, if_false, hw, if_true]
      cases hmo : (rewrite f.lines f.fileType).2.2 <;> simp [hmo]

/-- Witness for the amended C6: a read-failing file leaves the statistics
untouched, and a write-failing file leaves `files_processed` untouched. -/
theorem c6_error_isolation_witness :
    processFile statsZero ⟨true, false, [("x".data)], (".py".data)⟩ = statsZero ∧
    (processFile statsZero
        ⟨false, true, [("import logging\n".data)], (".py".data)⟩).files_processed = 0 := by
  refine ⟨(c6_error_isolation_amended statsZero ⟨true, false, [("x".data)], (".py".data)⟩ []).2.1 rfl, ?_⟩
  have h := (c6_error_isolation_amended statsZero
      ⟨false, true, [("import logging\n".data)], (".py".data)⟩ []).2.2 rfl
  exact h.1.trans rfl

theorem space_not_digit (c : Char) (h : isSpaceChar c = true) : c.isDigit = false := by
  simp only [isSpaceChar, Char.isWhitespace] at h
  rcases Bool.or_eq_true_iff.mp h with h' | h'
  · rcases Bool.or_eq_true_iff.mp h' with h'' | h''
    · rcases Bool.or_eq_true_iff.mp h'' with h3 | h3 <;>
        · rw [show c = _ from by exact_mod_cast of_decide_eq_true h3]; decide
    · rw [show c = _ from by exact_mod_cast of_decide_eq_true h'']; decide
  · rw [show c = _ from by exact_mod_cast of_decide_eq_true h']; decide

theorem not_blank_of_mem (l : Line) (c : Char) (hc : c ∈ l)
    (hns : isSpaceChar c = false) : isBlank l = false := by
  cases hb : isBlank l with
  | false => rfl
  | true =>
    exfalso
    have hnil : pyStrip l = [] := by
      simpa [isBlank, List.isEmpty_iff] using hb
    unfold pyStrip at hnil
    rw [List.reverse_eq_nil_iff] at hnil
    rw [List.dropWhile_eq_nil_iff] at hnil
    have hall : ∀ x ∈ l.dropWhile isSpaceChar, isSpaceChar x = true := by
      intro x hx
      exact hnil x (List.mem_reverse.mpr hx)
    have halll : ∀ x ∈ l, isSpaceChar x = true := by
      intro x hx
      rcases List.mem_append.mp
          (by rw [List.takeWhile_append_dropWhile]; exact hx :
            x ∈ l.takeWhile isSpaceChar ++ l.dropWhile isSpaceChar) with h' | h'
      · exact List.mem_takeWhile_imp h'
      · exact hall x h'
    rw [halll c hc] at hns
    exact Bool.noConfusion hns

theorem searchToks_digits_head (n : Nat) (ts : List Tok) (hn : 0 < n) :
    ∀ (l s : Line), searchToks (Tok.digits n :: ts) l = some s →
      ∃ c ∈ l, c.isDigit = true := by
  intro l
  induction l with
  | nil =>
    intro s h
    exfalso
    have hm : matchToks (Tok.digits n :: ts) [] = none := by
      unfold matchToks
      simp
      omega
    rw [searchToks, hm] at h
    exact Option.noConfusion h
  | cons c t ih =>
    intro s h
    cases hm : matchToks (Tok.digits n :: ts) (c :: t) with
    | some m =>
      have hc : c.isDigit = true := by
        cases hcd : c.isDigit with
        | true => rfl
        | false =>
          exfalso
          cases n with
          | zero => omega
          | succ k =>
            unfold matchToks at hm
            rw [List.take_succ_cons] at hm
            simp [List.all_cons, hcd] at hm
      exact ⟨c, List.mem_cons_self c t, hc⟩
    | none =>
      simp only [searchToks, hm] at h
      obtain ⟨c', hc', hd⟩ := ih s h
      exact ⟨c', List.mem_cons_of_mem c hc', hd⟩

theorem mkDateTime_some (y m d h mi s mic : Nat) (tz : Option Int) (dt : PyDateTime)
    (hh : mkDateTime y m d h mi s mic tz = some dt) :
    dt = ⟨y, m, d, h, mi, s, mic, tz⟩ := by
  unfold mkDateTime at hh
  split at hh
  · exact (Option.some.inj hh).symm
  · exact Option.noConfusion hh

theorem parseYmd_midnight (str : Line) (dt : PyDateTime) (h : parseYmd str = some dt) :
    dt.hour = 0 ∧ dt.minute = 0 ∧ dt.second = 0 ∧ dt.micro = 0 ∧ dt.tz = none := by
  unfold parseYmd at h
  split at h
  next y1 y2 y3 y4 m1 m2 d1 d2 =>
    cases hy : num4 y1 y2 y3 y4 with
    | none => simp [hy] at h
    | some y =>
      cases hm : num2 m1 m2 with
      | none => simp [hy, hm] at h
      | some m =>
        cases hd : num2 d1 d2 with
        | none => simp [hy, hm, hd] at h
        | some d =>
          simp only [hy, hm, hd, Option.some_bind] at h
          have := mkDateTime_some _ _ _ _ _ _ _ _ _ h
          subst this
          exact ⟨rfl, rfl, rfl, rfl, rfl⟩
  next => exact Option.noConfusion h

/-- C9: the claim fails as a universal statement over lines.  A line whose
first `\d{4}-\d{2}-\d{2}` occurrence is an invalid date (`1111-22-33`) but
which also carries a valid `2024-02-15 10:30:45` timestamp falls through the
bare-date grammar to the full-datetime grammar, so `extract_date` returns
the instant with its time of day, not midnight of the timestamp's date. -/
theorem c9_midnight_counterexample :
    tryPattern (tokYmdHMS, Fmt.ymdHMS) ("1111-22-33 2024-02-15 10:30:45".data) =
      some ⟨2024, 2, 15, 10, 30, 45, 0, none⟩ ∧
    extract_date ("1111-22-33 2024-02-15 10:30:45".data) =
      some ⟨2024, 2, 15, 10, 30, 45, 0, none⟩ ∧
    extract_date ("1111-22-33 2024-02-15 10:30:45".data) ≠
      some ⟨2024, 2, 15, 0, 0, 0, 0, none⟩ := by
  refine ⟨by decide, by decide, by decide⟩

/-- C9 (amended): for every line on which the bare-date grammar — the first
grammar tried — matches and parses (its first `\d{4}-\d{2}-\d{2}` occurrence
is a valid calendar date), `extract_date` returns the instant at 00:00:00 of
that date, discarding any time of day present on the line; consequently the
truncation loop's keep/drop decision for such a line compares only that
midnight instant against the cutoff. -/
theorem c9_midnight_amended (l : Line) (dt : PyDateTime)
    (h : tryPattern (tokYmd, Fmt.ymd) l = some dt) :
    extract_date l = some dt ∧
    dt.hour = 0 ∧ dt.minute = 0 ∧ dt.second = 0 ∧ dt.tz = none ∧
    (∀ cutoff : PyDateTime, keepB cutoff l = decide (pyGe dt cutoff = some true)) := by
  have hext : extract_date l = some dt := by
    simp only [extract_date, datetime_patterns, tryAll, h]
  have hmatch : ∃ s, searchToks tokYmd l = some s ∧ parseYmd s = some dt := by
    unfold tryPattern at h
    cases hs : searchToks tokYmd l with
    | none => rw [hs] at h; exact Option.noConfusion h
    | some s => rw [hs] at h; exact ⟨s, rfl, h⟩
  obtain ⟨s, hs, hp⟩ := hmatch
  obtain ⟨e1, e2, e3, _, e5⟩ := parseYmd_midnight s dt hp
  obtain ⟨c, hcl, hcd⟩ := searchToks_digits_head 4
      [Tok.ch '-', Tok.digits 2, Tok.ch '-', Tok.digits 2] (by omega) l s hs
  have hcs : isSpaceChar c = false := by
    cases hsp : isSpaceChar c with
    | false => rfl
    | true => rw [space_not_digit c hsp] at hcd; exact Bool.noConfusion hcd
  have hnb : isBlank l = false := not_blank_of_mem l c hcl hcs
  refine ⟨hext, e1, e2, e3, e5, ?_⟩
  intro cutoff
  simp [keepB, hnb, hext]

/-- Witness for the amended C9 at `2024-02-15 10:30:45 INFO Test`:
`extract_date` returns midnight of 2024-02-15, and against cutoff
2024-02-16 the keep decision is to drop the line. -/
theorem c9_midnight_witness :
    extract_date ("2024-02-15 10:30:45 INFO Test".data) =
      some ⟨2024, 2, 15, 0, 0, 0, 0, none⟩ ∧
    keepB ⟨2024, 2, 16, 0, 0, 0, 0, none⟩ ("2024-02-15 10:30:45 INFO Test".data) = false := by
  have h := c9_midnight_amended ("2024-02-15 10:30:45 INFO Test".data)
      ⟨2024, 2, 15, 0, 0, 0, 0, none⟩ (by decide)
  refine ⟨h.1, ?_⟩
  rw [h.2.2.2.2.2 ⟨2024, 2, 16, 0, 0, 0, 0, none⟩]
  decide

/-- A contiguous substring (the language-level reading of a regex match
anywhere in the line). -/
def subSeg (w l : Line) : Prop := ∃ s t, l = s ++ w ++ t

theorem match_digits8_cond (cs m : Line)
    (h : matchToks [Tok.digits 8] cs = some m) :
    (cs.take 8).length = 8 ∧ (cs.take 8).all Char.isDigit = true := by
  unfold matchToks at h
  dsimp only at h
  by_cases hc : (cs.take 8).length = 8 ∧ (cs.take 8).all Char.isDigit = true
  · exact hc
  · rw [if_neg hc] at h
    exact Option.noConfusion h

theorem searchToks_isSome_of_matchToks (ts : List Tok) (l : Line)
    (h : (matchToks ts l).isSome = true) : (searchToks ts l).isSome = true := by
  cases l with
  | nil => simpa [searchToks] using h
  | cons c t =>
    simp only [searchToks]
    cases hm : matchToks ts (c :: t) with
    | some m => rfl
    | none => rw [hm] at h; exact Bool.noConfusion h

theorem searchToks_isSome_cons_of_tail (ts : List Tok) (c : Char) (t : Line)
    (h : (searchToks ts t).isSome = true) : (searchToks ts (c :: t)).isSome = true := by
  simp only [searchToks]
  cases hm : matchToks ts (c :: t) with
  | some m => rfl
  | none => exact h

theorem search8_of_subSeg (w : Line) (hw : w.length = 8)
    (hd : w.all Char.isDigit = true) :
    ∀ l : Line, subSeg w l → (searchToks [Tok.digits 8] l).isSome = true := by
  intro l hsub
  obtain ⟨s, t, rfl⟩ := hsub
  induction s with
  | nil =>
    apply searchToks_isSome_of_matchToks
    have htake : (w ++ t).take 8 = w := by
      rw [← hw]
      exact List.take_left w t
    unfold matchToks
    rw [List.nil_append, htake]
    simp [hw, hd, matchToks]
  | cons c s' ih =>
    exact searchToks_isSome_cons_of_tail _ c _ ih

theorem subSeg_of_search8 (l : Line)
    (h : (searchToks [Tok.digits 8] l).isSome = true) :
    ∃ w, w.length = 8 ∧ w.all Char.isDigit = true ∧ subSeg w l := by
  induction l with
  | nil =>
    exfalso
    have hm : matchToks [Tok.digits 8] ([] : Line) = none := by
      unfold matchToks
      simp
    rw [searchToks, hm] at h
    exact Bool.noConfusion h
  | cons c t ih =>
    simp only [searchToks] at h
    cases hm : matchToks [Tok.digits 8] (c :: t) with
    | some m =>
      obtain ⟨h1, h2⟩ := match_digits8_cond _ _ hm
      exact ⟨(c :: t).take 8, h1, h2, [], (c :: t).drop 8,
        by rw [List.nil_append, List.take_append_drop]⟩
    | none =>
      rw [hm] at h
      obtain ⟨w, hw, hd, s, t', ht⟩ := ih h
      exact ⟨w, hw, hd, c :: s, t', by rw [ht]; rfl⟩

theorem search8_dropWhile_ws (l : Line)
    (h : (searchToks [Tok.digits 8] l).isSome = true) :
    (searchToks [Tok.digits 8] (l.dropWhile isSpaceChar)).isSome = true := by
  induction l with
  | nil => simpa using h
  | cons c t ih =>
    cases hc : isSpaceChar c with
    | false => simpa [List.dropWhile_cons, hc] using h
    | true =>
      rw [List.dropWhile_cons, if_pos hc]
      apply ih
      simp only [searchToks] at h
      cases hm : matchToks [Tok.digits 8] (c :: t) with
      | some m =>
        exfalso
        obtain ⟨h1, h2⟩ := match_digits8_cond _ _ hm
        rw [List.take_succ_cons, List.all_cons] at h2
        simp at h2
        have hcd : c.isDigit = true := h2.1
        rw [space_not_digit c hc] at hcd
        exact Bool.noConfusion hcd
      | none => rw [hm] at h; exact h

theorem search8_reverse (l : Line)
    (h : (searchToks [Tok.digits 8] l).isSome = true) :
    (searchToks [Tok.digits 8] l.reverse).isSome = true := by
  obtain ⟨w, hw, hd, s, t, ht⟩ := subSeg_of_search8 l h
  apply search8_of_subSeg w.reverse (by simpa using hw)
  · rw [List.all_eq_true] at hd ⊢
    intro c hc
    exact hd c (List.mem_reverse.mp hc)
  · refine ⟨t.reverse, s.reverse, ?_⟩
    rw [ht]
    simp

theorem search8_pyStrip (l : Line)
    (h : (searchToks [Tok.digits 8] l).isSome = true) :
    (searchToks [Tok.digits 8] (pyStrip l)).isSome = true := by
  unfold pyStrip
  exact search8_reverse _ (search8_dropWhile_ws _ (search8_reverse _ (search8_dropWhile_ws _ h)))

/-- C10: for a readable regular file whose extension and (lowercased)
filename pass none of the log-name checks, `is_log_file` is exactly the
content sniff — any timestamp-grammar pattern matching anywhere in any of
the first five (stripped) lines, with no attempt to parse the match as a
date; in particular a run of eight or more consecutive digits in one of the
first five lines (a `\d{8}` match) suffices to classify the file as a log
file. -/
theorem c10_content_sniff (f : FileModel)
    (h1 : f.isFile = true)
    (h2 : logExtensions.contains (f.suffix.map Char.toLower) = false)
    (h3 : matchesLogNamePattern (f.name.map Char.toLower) = false)
    (h4 : f.readable = true) :
    is_log_file f = contentSniff f.lines ∧
    ((f.lines.take 5).any (fun l => (searchToks [Tok.digits 8] l).isSome) = true →
      is_log_file f = true) := by
  have heq : is_log_file f = contentSniff f.lines := by
    have h2' : (f.suffix.map Char.toLower) ∉ logExtensions := by simpa using h2
    simp [is_log_file, h1, h2', h3, h4]
  refine ⟨heq, ?_⟩
  intro hrun
  rw [heq]
  rw [List.any_eq_true] at hrun
  obtain ⟨l0, hl0, hs8⟩ := hrun
  rw [contentSniff, List.any_eq_true]
  refine ⟨l0, hl0, ?_⟩
  rw [List.any_eq_true]
  refine ⟨(tokYmd8, Fmt.ymd8), by decide, ?_⟩
  exact search8_pyStrip l0 (by simpa using hs8)

/-- Witness for C10: a `.txt` file whose first line holds an eight-digit run
is classified as a log file by the content sniff alone. -/
theorem c10_content_sniff_witness :
    is_log_file ⟨true, (".txt".data), ("data.txt".data), true,
      [("id 12345678 ok".data)]⟩ = true := by
  have h := c10_content_sniff
      ⟨true, (".txt".data), ("data.txt".data), true, [("id 12345678 ok".data)]⟩
      rfl (by decide) (by decide) rfl
  exact h.2 (by decide)
